import Mathlib

/-!
# Shallow embedding of the salon reservation service (`src/main.py`)

The service keeps all state in an external table of reservation rows.  We
embed that table as a `List Row` and every endpoint as a pure function
`List Row → result × List Row`.  Results carry the HTTP status of the error
branches (`Except Nat α`: `.error 409`, `.error 404`, …; `.ok` is the 2xx
branch).

Times: the Python code parses times into `datetime.time` values, which
compare lexicographically on (hour, minute, second), and serialises them
with `strftime("%H:%M:%S")` (injective), so the table column is embedded as
the triple itself and column equality as equality of triples.
-/

namespace Salon

/-- Embeds Python `datetime.time` restricted to the fields this program uses
(hour, minute, second); comparison in Python is lexicographic on these. -/
structure Time where
  hour : Nat
  minute : Nat
  second : Nat
deriving DecidableEq, Repr

/-- Python `time` ordering: lexicographic on (hour, minute, second). -/
def Time.le (a b : Time) : Prop :=
  a.hour < b.hour ∨ (a.hour = b.hour ∧
    (a.minute < b.minute ∨ (a.minute = b.minute ∧ a.second ≤ b.second)))

instance : DecidableRel Time.le := fun a b =>
  decidable_of_iff (a.hour < b.hour ∨ (a.hour = b.hour ∧
    (a.minute < b.minute ∨ (a.minute = b.minute ∧ a.second ≤ b.second)))) Iff.rfl

instance : IsTotal Time Time.le := by
  constructor
  intro a b
  unfold Time.le
  omega

instance : IsTrans Time Time.le := by
  constructor
  intro a b c hab hbc
  unfold Time.le at hab hbc ⊢
  omega

theorem Time.le_antisymm {a b : Time} (h1 : Time.le a b) (h2 : Time.le b a) : a = b := by
  cases a; cases b
  unfold Time.le at h1 h2
  simp_all only [Time.mk.injEq]
  omega

/-- Python `str.split(sep)` for a single-character separator: splits the
character list at every occurrence of `sep`, keeping empty segments, and
yields `[[]]` on the empty string. -/
def pySplit (sep : Char) : List Char → List (List Char)
  | [] => [[]]
  | c :: cs =>
    match pySplit sep cs with
    | [] => [[]]
    | p :: ps => if c = sep then [] :: p :: ps else (c :: p) :: ps

/-- Python `str.zfill(2)`: left-pad with `'0'` to length 2; a leading sign
character keeps its position and the zeros go after it. -/
def zfill2 (s : List Char) : List Char :=
  if 2 ≤ s.length then s
  else
    match s with
    | [] => ['0', '0']
    | c :: rest => if c = '+' ∨ c = '-' then c :: '0' :: rest else '0' :: c :: rest

/-- `ReservationStatus` enum of `src/main.py`. -/
inductive ReservationStatus where
  | scheduled
  | completed
  | cancelled
deriving DecidableEq, Repr

/-- A row of the `salon_reservations` table, as read and written by
`src/main.py`.  `created_at`/`updated_at` are store-maintained opaque
strings. -/
structure Row where
  reservation_id : String
  customer_name : String
  phone_number : String
  reservation_date : String
  reservation_time : Time
  stylist_name : String
  service_menu : String
  duration_minutes : Int
  status : ReservationStatus
  notes : Option String
  created_at : String
  updated_at : String
deriving DecidableEq, Repr

/-- A validated create request (`ReservationCreate` after pydantic
validation: time already normalized and parsed, duration positive). -/
structure ReservationCreate where
  customer_name : String
  phone_number : String
  reservation_date : String
  reservation_time : Time
  stylist_name : String
  service_menu : String
  duration_minutes : Int
  notes : Option String

/-- A validated update request (`ReservationUpdate` after pydantic
validation); every field optional, `none` = omitted. -/
structure ReservationUpdate where
  reservation_date : Option String
  reservation_time : Option Time
  stylist_name : Option String
  service_menu : Option String
  duration_minutes : Option Int
  notes : Option String

/-- `ReservationCreate.normalize_time` of `src/main.py` (lines 68-86): split
on `':'`; two parts — zero-fill the hour and append `":00"`; three parts —
zero-fill the hour; anything else is returned unchanged. -/
def ReservationCreate.normalize_time (v : String) : String :=
  match pySplit ':' v.data with
  | [hour, minute] => ⟨zfill2 hour ++ ':' :: minute ++ [':', '0', '0']⟩
  | [hour, minute, second] => ⟨zfill2 hour ++ ':' :: minute ++ ':' :: second⟩
  | _ => v

/-- `ReservationUpdate.normalize_time` of `src/main.py` (lines 108-126);
its body is textually identical to the create-path validator. -/
def ReservationUpdate.normalize_time (v : String) : String :=
  match pySplit ':' v.data with
  | [hour, minute] => ⟨zfill2 hour ++ ':' :: minute ++ [':', '0', '0']⟩
  | [hour, minute, second] => ⟨zfill2 hour ++ ':' :: minute ++ ':' :: second⟩
  | _ => v

/-- `ReservationCreate.validate_duration` (lines 61-66): reject
non-positive durations. -/
def ReservationCreate.validate_duration (v : Int) : Except String Int :=
  if v ≤ 0 then .error "Duration must be positive" else .ok v

/-- `ReservationUpdate.validate_duration` (lines 101-106): reject a present
non-positive duration; `none` passes. -/
def ReservationUpdate.validate_duration (v : Option Int) : Except String (Option Int) :=
  match v with
  | some n => if n ≤ 0 then .error "Duration must be positive" else .ok v
  | none => .ok v

/-- `check_availability_conflict` (lines 161-181): query rows equal on
stylist, date, normalized time, with status `scheduled`; when `exclude_id`
is supplied drop rows with that id; conflict iff any row remains. -/
def check_availability_conflict (db : List Row) (stylist_name : String)
    (reservation_date : String) (reservation_time : Time)
    (exclude_id : Option String) : Bool :=
  let base := db.filter fun (r : Row) =>
    r.stylist_name == stylist_name && r.reservation_date == reservation_date &&
      r.reservation_time == reservation_time && r.status == ReservationStatus.scheduled
  let result :=
    match exclude_id with
    | some e => base.filter fun (r : Row) => r.reservation_id != e
    | none => base
  result.length > 0

/-- `get_all_hours_in_day` (lines 184-189): the on-the-hour times for hours
9 through 16. -/
def get_all_hours_in_day : List Time :=
  (List.range' 9 8).map fun h => ⟨h, 0, 0⟩

/-- The row `create_reservation` inserts (the `reservation_data` dict of
lines 210-220, completed by the store-generated id and timestamps): the
request's fields with status `scheduled`. -/
def reservation_data (newId ts : String) (reservation : ReservationCreate) : Row :=
  { reservation_id := newId
    customer_name := reservation.customer_name
    phone_number := reservation.phone_number
    reservation_date := reservation.reservation_date
    reservation_time := reservation.reservation_time
    stylist_name := reservation.stylist_name
    service_menu := reservation.service_menu
    duration_minutes := reservation.duration_minutes
    status := ReservationStatus.scheduled
    notes := reservation.notes
    created_at := ts
    updated_at := ts }

/-- `create_reservation` (`POST /add`, lines 194-260): reject with 409 on a
conflict, otherwise insert a `scheduled` row (id and timestamps are
store-generated, passed in here). -/
def create_reservation (db : List Row) (newId ts : String)
    (reservation : ReservationCreate) : Except Nat Row × List Row :=
  if check_availability_conflict db reservation.stylist_name
      reservation.reservation_date reservation.reservation_time none then
    (.error 409, db)
  else
    let row := reservation_data newId ts reservation
    (.ok row, db ++ [row])

/-- Lexicographic (code-point) comparison of character lists: how the store
orders its text/date columns for ASCII data such as ISO dates. -/
def charListLe : List Char → List Char → Bool
  | [], _ => true
  | _ :: _, [] => false
  | a :: as, b :: bs =>
    if a.toNat < b.toNat then true
    else if b.toNat < a.toNat then false
    else charListLe as bs

theorem charListLe_total : ∀ a b, charListLe a b = true ∨ charListLe b a = true
  | [], _ => Or.inl rfl
  | _ :: _, [] => Or.inr rfl
  | a :: as, b :: bs => by
    rcases Nat.lt_trichotomy a.toNat b.toNat with h | h | h
    · left; simp [charListLe, h]
    · rcases charListLe_total as bs with ih | ih
      · left; simp [charListLe, h, Nat.lt_irrefl, ih]
      · right; simp [charListLe, h, Nat.lt_irrefl, ih]
    · right; simp [charListLe, h]

theorem charListLe_antisymm :
    ∀ a b, charListLe a b = true → charListLe b a = true → a = b
  | [], [], _, _ => rfl
  | [], _ :: _, _, h2 => by simp [charListLe] at h2
  | _ :: _, [], h1, _ => by simp [charListLe] at h1
  | a :: as, b :: bs, h1, h2 => by
    rcases Nat.lt_trichotomy a.toNat b.toNat with h | h | h
    · simp [charListLe, h, Nat.lt_asymm h] at h2
    · have hab : a = b := Char.eq_of_val_eq (UInt32.ext h)
      subst hab
      simp only [charListLe, Nat.lt_irrefl, if_false] at h1 h2
      rw [charListLe_antisymm as bs h1 h2]
    · simp [charListLe, h, Nat.lt_asymm h] at h1

theorem charListLe_trans :
    ∀ a b c, charListLe a b = true → charListLe b c = true → charListLe a c = true
  | [], _, _, _, _ => rfl
  | _ :: _, [], _, h1, _ => by simp [charListLe] at h1
  | _ :: _, _ :: _, [], _, h2 => by simp [charListLe] at h2
  | a :: as, b :: bs, c :: cs, h1, h2 => by
    simp only [charListLe] at h1 h2 ⊢
    split at h1
    · split at h2
      · simp [show a.toNat < c.toNat by omega]
      · split at h2
        · exact absurd h2 (by simp)
        · have : b.toNat = c.toNat := by omega
          simp [show a.toNat < c.toNat by omega]
    · split at h1
      · exact absurd h1 (by simp)
      · have hab : a.toNat = b.toNat := by omega
        split at h2
        · simp [show a.toNat < c.toNat by omega]
        · split at h2
          · exact absurd h2 (by simp)
          · have hbc : b.toNat = c.toNat := by omega
            have hac : ¬ a.toNat < c.toNat := by omega
            have hca : ¬ c.toNat < a.toNat := by omega
            simp only [hac, hca, if_false]
            exact charListLe_trans as bs cs h1 h2

/-- `ORDER BY` comparison on a text column. -/
def strLe (a b : String) : Prop := charListLe a.data b.data = true

instance : DecidableRel strLe := fun a b =>
  decidable_of_iff (charListLe a.data b.data = true) Iff.rfl

theorem strLe_antisymm {a b : String} (h1 : strLe a b) (h2 : strLe b a) : a = b := by
  cases a; cases b
  exact congrArg String.mk (charListLe_antisymm _ _ h1 h2)

/-- Ordering used by `lookup_reservations`: `ORDER BY reservation_date,
reservation_time` (ISO date strings order like dates). -/
def rowDateTimeLe (r1 r2 : Row) : Prop :=
  strLe r1.reservation_date r2.reservation_date ∧
    (r1.reservation_date = r2.reservation_date →
      Time.le r1.reservation_time r2.reservation_time)

instance : DecidableRel rowDateTimeLe := fun r1 r2 =>
  decidable_of_iff (strLe r1.reservation_date r2.reservation_date ∧
    (r1.reservation_date = r2.reservation_date →
      Time.le r1.reservation_time r2.reservation_time)) Iff.rfl

instance : IsTotal Row rowDateTimeLe := by
  constructor
  intro a b
  unfold rowDateTimeLe
  rcases charListLe_total a.reservation_date.data b.reservation_date.data with h | h
  · by_cases he : a.reservation_date = b.reservation_date
    · rcases (IsTotal.total (r := Time.le) a.reservation_time b.reservation_time) with ht | ht
      · exact Or.inl ⟨h, fun _ => ht⟩
      · refine Or.inr ⟨?_, fun _ => ht⟩
        rw [he] at h ⊢; exact h
    · exact Or.inl ⟨h, fun he2 => absurd he2 he⟩
  · by_cases he : b.reservation_date = a.reservation_date
    · rcases (IsTotal.total (r := Time.le) a.reservation_time b.reservation_time) with ht | ht
      · refine Or.inl ⟨?_, fun _ => ht⟩
        rw [← he] at h ⊢; exact h
      · exact Or.inr ⟨h, fun _ => ht⟩
    · exact Or.inr ⟨h, fun he2 => absurd he2 he⟩

instance : IsTrans Row rowDateTimeLe := by
  constructor
  intro a b c hab hbc
  obtain ⟨d1, t1⟩ := hab
  obtain ⟨d2, t2⟩ := hbc
  refine ⟨charListLe_trans _ _ _ d1 d2, fun hac => ?_⟩
  have hb : a.reservation_date = b.reservation_date := by
    apply strLe_antisymm d1
    rw [hac]; exact d2
  exact Trans.trans (t1 hb) (t2 (hb ▸ hac))

/-- `lookup_reservations` (`GET /lookup/{phone_number}`, lines 263-304):
rows for the phone with status `scheduled`, ordered by date then time; 404
when none. -/
def lookup_reservations (db : List Row) (phone_number : String) :
    Except Nat (List Row) :=
  let rows := db.filter fun r =>
    r.phone_number == phone_number && r.status == ReservationStatus.scheduled
  let sortedRows := rows.insertionSort rowDateTimeLe
  if sortedRows.isEmpty then .error 404 else .ok sortedRows

/-- The projection of a `ReservationUpdate` onto an existing row: exactly
the fields present in `update_data` (lines 329-341) overwrite the row;
`customer_name` and `status` are never in `update_data`. -/
def applyUpdate (updates : ReservationUpdate) (r : Row) : Row :=
  { r with
    reservation_date := updates.reservation_date.getD r.reservation_date
    reservation_time := updates.reservation_time.getD r.reservation_time
    stylist_name := updates.stylist_name.getD r.stylist_name
    service_menu := updates.service_menu.getD r.service_menu
    duration_minutes := updates.duration_minutes.getD r.duration_minutes
    notes :=
      match updates.notes with
      | some n => some n
      | none => r.notes }

/-- `modify_reservation` (`PUT /modify/{reservation_id}`, lines 307-393):
404 when the id matches no row; conflict check on the would-be (stylist,
date, time) excluding this id, 409 on conflict; otherwise update every row
with this id and return the first updated row (500 if the store returns
nothing, unreachable here). -/
def modify_reservation (db : List Row) (reservation_id : String)
    (updates : ReservationUpdate) : Except Nat Row × List Row :=
  match db.filter (fun r => r.reservation_id == reservation_id) with
  | [] => (.error 404, db)
  | existing_record :: _ =>
    let check_stylist := updates.stylist_name.getD existing_record.stylist_name
    let check_date := updates.reservation_date.getD existing_record.reservation_date
    let check_time := updates.reservation_time.getD existing_record.reservation_time
    if check_availability_conflict db check_stylist check_date check_time
        (some reservation_id) then
      (.error 409, db)
    else
      let db2 := db.map fun r =>
        if r.reservation_id == reservation_id then applyUpdate updates r else r
      match db2.filter (fun r => r.reservation_id == reservation_id) with
      | [] => (.error 500, db2)
      | updated :: _ => (.ok updated, db2)

/-- `cancel_reservation` (`DELETE /cancel/{reservation_id}`, lines
396-444): 404 when the id matches no row; otherwise set `status` to
`cancelled` on every row with this id and return the first updated row. -/
def cancel_reservation (db : List Row) (reservation_id : String) :
    Except Nat Row × List Row :=
  match db.filter (fun r => r.reservation_id == reservation_id) with
  | [] => (.error 404, db)
  | _ :: _ =>
    let db2 := db.map fun r =>
      if r.reservation_id == reservation_id then
        { r with status := ReservationStatus.cancelled }
      else r
    match db2.filter (fun r => r.reservation_id == reservation_id) with
    | [] => (.error 500, db2)
    | updated :: _ => (.ok updated, db2)

/-- `check_availability` (`GET /availability`, lines 447-482): times of
`scheduled` rows for the stylist/date (duplicates kept), the fixed hour
universe, and the universe members not among the booked times; both lists
returned sorted. -/
def check_availability (db : List Row) (stylist : String)
    (reservation_date : String) : List Time × List Time :=
  let booked_times := (db.filter fun r =>
    r.stylist_name == stylist && r.reservation_date == reservation_date &&
      r.status == ReservationStatus.scheduled).map fun r => r.reservation_time
  let all_hours := get_all_hours_in_day
  let available_times := all_hours.filter fun t => !(booked_times.contains t)
  (booked_times.insertionSort Time.le, available_times.insertionSort Time.le)

/-- Modelled from the spec: the downstream type parsing of a time string
(pydantic's `time` field coercion, outside this repository) accepts the
canonical `HH:MM:SS` and `HH:MM` forms with in-range fields; per the spec,
"any other shape … will fail downstream type parsing". -/
def parseTime (s : String) : Option Time :=
  match s.data with
  | [h1, h2, ':', m1, m2, ':', s1, s2] =>
    if h1.isDigit && h2.isDigit && m1.isDigit && m2.isDigit && s1.isDigit && s2.isDigit
    then
      let h := (h1.toNat - '0'.toNat) * 10 + (h2.toNat - '0'.toNat)
      let m := (m1.toNat - '0'.toNat) * 10 + (m2.toNat - '0'.toNat)
      let sec := (s1.toNat - '0'.toNat) * 10 + (s2.toNat - '0'.toNat)
      if h < 24 && m < 60 && sec < 60 then some ⟨h, m, sec⟩ else none
    else none
  | [h1, h2, ':', m1, m2] =>
    if h1.isDigit && h2.isDigit && m1.isDigit && m2.isDigit then
      let h := (h1.toNat - '0'.toNat) * 10 + (h2.toNat - '0'.toNat)
      let m := (m1.toNat - '0'.toNat) * 10 + (m2.toNat - '0'.toNat)
      if h < 24 && m < 60 then some ⟨h, m, 0⟩ else none
    else none
  | _ => none

/-- A create request as it arrives over HTTP, before pydantic validation:
the time still a raw string, the duration unchecked. -/
structure RawReservationCreate where
  customer_name : String
  phone_number : String
  reservation_date : String
  reservation_time : String
  stylist_name : String
  service_menu : String
  duration_minutes : Int
  notes : Option String

/-- An update request as it arrives over HTTP, before pydantic validation. -/
structure RawReservationUpdate where
  reservation_date : Option String
  reservation_time : Option String
  stylist_name : Option String
  service_menu : Option String
  duration_minutes : Option Int
  notes : Option String

/-- Pydantic validation of a create request: `validate_duration`, then
`normalize_time` followed by the type parsing of the time field.  A failure
of either validator fails the whole request. -/
def ReservationCreate.parse (raw : RawReservationCreate) :
    Except String ReservationCreate :=
  match ReservationCreate.validate_duration raw.duration_minutes with
  | .error e => .error e
  | .ok d =>
    match parseTime (ReservationCreate.normalize_time raw.reservation_time) with
    | none => .error "invalid time"
    | some t =>
      .ok
        { customer_name := raw.customer_name
          phone_number := raw.phone_number
          reservation_date := raw.reservation_date
          reservation_time := t
          stylist_name := raw.stylist_name
          service_menu := raw.service_menu
          duration_minutes := d
          notes := raw.notes }

/-- Pydantic validation of an update request: `validate_duration`, then
`normalize_time` and time parsing when a time is present. -/
def ReservationUpdate.parse (raw : RawReservationUpdate) :
    Except String ReservationUpdate :=
  match ReservationUpdate.validate_duration raw.duration_minutes with
  | .error e => .error e
  | .ok d =>
    match raw.reservation_time with
    | none =>
      .ok
        { reservation_date := raw.reservation_date
          reservation_time := none
          stylist_name := raw.stylist_name
          service_menu := raw.service_menu
          duration_minutes := d
          notes := raw.notes }
    | some ts =>
      match parseTime (ReservationUpdate.normalize_time ts) with
      | none => .error "invalid time"
      | some t =>
        .ok
          { reservation_date := raw.reservation_date
            reservation_time := some t
            stylist_name := raw.stylist_name
            service_menu := raw.service_menu
            duration_minutes := d
            notes := raw.notes }

/-- `POST /add` including the validation layer: a validation failure is a
422 and the request never reaches the conflict checker or the store. -/
def handle_add (db : List Row) (newId ts : String) (raw : RawReservationCreate) :
    Except Nat Row × List Row :=
  match ReservationCreate.parse raw with
  | .error _ => (.error 422, db)
  | .ok req => create_reservation db newId ts req

/-- `PUT /modify/{id}` including the validation layer. -/
def handle_modify (db : List Row) (reservation_id : String)
    (raw : RawReservationUpdate) : Except Nat Row × List Row :=
  match ReservationUpdate.parse raw with
  | .error _ => (.error 422, db)
  | .ok u => modify_reservation db reservation_id u

/-- The predicate of the conflict query: same stylist, date and time, and
status `scheduled`. -/
def matchesSlot (stylist reservation_date : String) (t : Time) (r : Row) : Bool :=
  r.stylist_name == stylist && r.reservation_date == reservation_date &&
    r.reservation_time == t && r.status == ReservationStatus.scheduled

/-- How many `scheduled` reservations the store holds at a slot. -/
def schedCount (db : List Row) (stylist reservation_date : String) (t : Time) : Nat :=
  (db.filter (matchesSlot stylist reservation_date t)).length

/-- The advisory uniqueness invariant: at most one `scheduled` reservation
per (stylist, date, time) slot. -/
def Inv (db : List Row) : Prop :=
  ∀ stylist reservation_date t, schedCount db stylist reservation_date t ≤ 1

/-- The store's key property: reservation identifiers are pairwise
distinct. -/
def idsNodup (db : List Row) : Prop :=
  (db.map fun r => r.reservation_id).Nodup

/-- Every field of a row except `status`: what `cancel_reservation` must
leave untouched. -/
def Row.nonStatusFields (r : Row) :
    String × String × String × String × Time × String × String × Int ×
      Option String × String × String :=
  (r.reservation_id, r.customer_name, r.phone_number, r.reservation_date,
    r.reservation_time, r.stylist_name, r.service_menu, r.duration_minutes,
    r.notes, r.created_at, r.updated_at)

/-- A concrete scheduled reservation, for witnesses and counterexamples. -/
def rowA : Row :=
  { reservation_id := "a"
    customer_name := "Ann"
    phone_number := "555"
    reservation_date := "2025-06-01"
    reservation_time := ⟨9, 0, 0⟩
    stylist_name := "Kim"
    service_menu := "cut"
    duration_minutes := 60
    status := ReservationStatus.scheduled
    notes := none
    created_at := "c1"
    updated_at := "u1" }

/-- A second scheduled reservation at the same slot, under another id. -/
def rowB : Row :=
  { rowA with reservation_id := "b", customer_name := "Bob", phone_number := "666" }

/-- `rowA` after cancellation. -/
def rowACancelled : Row := { rowA with status := ReservationStatus.cancelled }

/-- A concrete validated create request, for witnesses. -/
def reqA : ReservationCreate :=
  { customer_name := "Ann"
    phone_number := "555"
    reservation_date := "2025-06-01"
    reservation_time := ⟨9, 0, 0⟩
    stylist_name := "Kim"
    service_menu := "cut"
    duration_minutes := 60
    notes := none }

/-- The update request with every field omitted. -/
def emptyUpdate : ReservationUpdate :=
  { reservation_date := none
    reservation_time := none
    stylist_name := none
    service_menu := none
    duration_minutes := none
    notes := none }

end Salon

deriving instance DecidableEq for Except

namespace Salon

theorem conflict_iff (db : List Row) (s d : String) (t : Time) (ex : Option String) :
    check_availability_conflict db s d t ex = true ↔
      ∃ r ∈ db, r.stylist_name = s ∧ r.reservation_date = d ∧ r.reservation_time = t ∧
        r.status = ReservationStatus.scheduled ∧
        ∀ e, ex = some e → r.reservation_id ≠ e := by
  cases ex with
  | none =>
    simp [check_availability_conflict, List.length_pos_iff_exists_mem, List.mem_filter,
      and_assoc]
  | some e =>
    simp [check_availability_conflict, List.length_pos_iff_exists_mem, List.mem_filter,
      and_assoc, bne_iff_ne]
    tauto

/-- C2: `check_availability_conflict(stylist, date, time, exclude_id)`
returns true iff, after removing the rows whose identifier equals
`exclude_id` (when one is supplied), at least one reservation remains in
the store whose stylist, date and normalized time match exactly and whose
status is `scheduled`; rows with status `cancelled` or `completed` never
cause a conflict. -/
theorem C2_conflict_check_iff (db : List Row) (s d : String) (t : Time)
    (ex : Option String) :
    check_availability_conflict db s d t ex = true ↔
      ∃ r ∈ db, r.stylist_name = s ∧ r.reservation_date = d ∧ r.reservation_time = t ∧
        r.status = ReservationStatus.scheduled ∧
        ∀ e, ex = some e → r.reservation_id ≠ e :=
  conflict_iff db s d t ex

theorem pySplit_ne_nil (sep : Char) : ∀ l : List Char, pySplit sep l ≠ []
  | [] => by simp [pySplit]
  | c :: cs => by
    cases h : pySplit sep cs with
    | nil => exact absurd h (pySplit_ne_nil sep cs)
    | cons p ps =>
      by_cases hc : c = sep <;> simp [pySplit, h, hc]

theorem pySplit_no_sep (sep : Char) :
    ∀ l : List Char, sep ∉ l → pySplit sep l = [l]
  | [], _ => rfl
  | c :: cs, h => by
    have hc : ¬ c = sep := fun e => h (e ▸ List.mem_cons_self c cs)
    have ih := pySplit_no_sep sep cs (fun m => h (List.mem_cons_of_mem c m))
    simp only [pySplit]
    rw [ih]
    simp [hc]

theorem pySplit_append_sep (sep : Char) :
    ∀ l rest : List Char, sep ∉ l →
      pySplit sep (l ++ sep :: rest) = l :: pySplit sep rest
  | [], rest, _ => by
    show pySplit sep (sep :: rest) = [] :: pySplit sep rest
    simp only [pySplit]
    cases h : pySplit sep rest with
    | nil => exact absurd h (pySplit_ne_nil sep rest)
    | cons p ps => simp
  | c :: cs, rest, h => by
    have hc : ¬ c = sep := fun e => h (e ▸ List.mem_cons_self c cs)
    have ih := pySplit_append_sep sep cs rest (fun m => h (List.mem_cons_of_mem c m))
    show pySplit sep (c :: (cs ++ sep :: rest)) = (c :: cs) :: pySplit sep rest
    simp only [pySplit]
    rw [ih]
    simp [hc]

/-- The time shapes named by the spec's normalization sentence, written from
the spec's words: an hour of one or two digits, a colon, a two-digit
minute, and optionally a colon and a two-digit second. -/
def specTimeShaped (s : String) : Bool :=
  match s.data with
  | [h, ':', m1, m2] => h.isDigit && m1.isDigit && m2.isDigit
  | [h1, h2, ':', m1, m2] =>
    h1.isDigit && h2.isDigit && m1.isDigit && m2.isDigit
  | [h, ':', m1, m2, ':', s1, s2] =>
    h.isDigit && m1.isDigit && m2.isDigit && s1.isDigit && s2.isDigit
  | [h1, h2, ':', m1, m2, ':', s1, s2] =>
    h1.isDigit && h2.isDigit && m1.isDigit && m2.isDigit && s1.isDigit && s2.isDigit
  | _ => false

/-- C4 counterexample: `"7:5"` is of none of the spec's four shapes (its
minute has a single digit), yet `normalize_time` does not pass it through
unchanged — it rewrites it to `"07:5:00"`. -/
theorem C4_counterexample :
    specTimeShaped "7:5" = false ∧
      ¬ ReservationCreate.normalize_time "7:5" = "7:5" ∧
      ReservationCreate.normalize_time "7:5" = "07:5:00" := by
  decide

/-- C4 (amended): the create-path and update-path normalizers are the same
function; on the four spec inputs they produce the identical zero-padded
`HH:MM:SS` strings; every string whose colon-split has exactly two parts
has its first segment zero-filled to two characters and `":00"` appended,
and every string whose colon-split has exactly three parts has its first
segment zero-filled, in both cases whatever characters the segments hold;
only strings whose colon-split has neither two nor three parts are passed
through unchanged. -/
theorem C4_normalize_time_amended :
    (∀ v : String,
      ReservationCreate.normalize_time v = ReservationUpdate.normalize_time v) ∧
    (ReservationCreate.normalize_time "9:30" = "09:30:00" ∧
      ReservationCreate.normalize_time "09:30" = "09:30:00" ∧
      ReservationCreate.normalize_time "9:30:15" = "09:30:15" ∧
      ReservationCreate.normalize_time "09:30:15" = "09:30:15") ∧
    (∀ h m : List Char, ':' ∉ h → ':' ∉ m →
      ReservationCreate.normalize_time ⟨h ++ ':' :: m⟩ =
        ⟨zfill2 h ++ ':' :: m ++ [':', '0', '0']⟩) ∧
    (∀ h m s2 : List Char, ':' ∉ h → ':' ∉ m → ':' ∉ s2 →
      ReservationCreate.normalize_time ⟨h ++ ':' :: m ++ ':' :: s2⟩ =
        ⟨zfill2 h ++ ':' :: m ++ ':' :: s2⟩) ∧
    (∀ v : String,
      (pySplit ':' v.data).length ≠ 2 → (pySplit ':' v.data).length ≠ 3 →
        ReservationCreate.normalize_time v = v) := by
  refine ⟨fun v => rfl, by decide, ?_, ?_, ?_⟩
  · intro h m hh hm
    simp only [ReservationCreate.normalize_time]
    rw [pySplit_append_sep ':' h m hh, pySplit_no_sep ':' m hm]
  · intro h m s2 hh hm hs
    simp only [ReservationCreate.normalize_time]
    rw [List.append_assoc, List.cons_append,
      pySplit_append_sep ':' h (m ++ ':' :: s2) hh,
      pySplit_append_sep ':' m s2 hm, pySplit_no_sep ':' s2 hs]
  · intro v h2 h3
    simp only [ReservationCreate.normalize_time]
    cases hp : pySplit ':' v.data with
    | nil => rfl
    | cons a l1 =>
      cases l1 with
      | nil => rfl
      | cons b l2 =>
        cases l2 with
        | nil => exact absurd (by simp [hp]) h2
        | cons c l3 =>
          cases l3 with
          | nil => exact absurd (by simp [hp]) h3
          | cons d l4 => rfl

/-- C7: a zero or negative `duration_minutes` always fails validation with
the malformed-request error, on the create and the update path alike, and
such a request is answered 422 with the store left untouched — it never
reaches the conflict checker or the store. -/
theorem C7_nonpositive_duration_rejected (v : Int) (hv : v ≤ 0) :
    ReservationCreate.validate_duration v = .error "Duration must be positive" ∧
    ReservationUpdate.validate_duration (some v) = .error "Duration must be positive" ∧
    (∀ (db : List Row) (newId ts : String) (raw : RawReservationCreate),
      raw.duration_minutes = v → handle_add db newId ts raw = (.error 422, db)) ∧
    (∀ (db : List Row) (i : String) (raw : RawReservationUpdate),
      raw.duration_minutes = some v → handle_modify db i raw = (.error 422, db)) := by
  refine ⟨by simp [ReservationCreate.validate_duration, hv],
    by simp [ReservationUpdate.validate_duration, hv], ?_, ?_⟩
  · intro db newId ts raw hd
    simp [handle_add, ReservationCreate.parse, ReservationCreate.validate_duration, hd, hv]
  · intro db i raw hd
    simp [handle_modify, ReservationUpdate.parse, ReservationUpdate.validate_duration, hd, hv]

/-- C7 witness: duration 0 is rejected on the create path. -/
theorem C7_nonpositive_duration_rejected_witness :
    ReservationCreate.validate_duration 0 = .error "Duration must be positive" :=
  (C7_nonpositive_duration_rejected 0 (by decide)).1

/-- C9: `lookup_reservations` answers 404 exactly when the store holds no
`scheduled` reservation for the phone (cancelled rows alone still give
404); otherwise it returns precisely the `scheduled` rows of that phone,
sorted by reservation date and then reservation time. -/
theorem C9_lookup_scheduled_sorted (db : List Row) (phone : String) :
    (lookup_reservations db phone = .error 404 ↔
      ∀ r ∈ db, r.phone_number = phone → r.status ≠ ReservationStatus.scheduled) ∧
    (∀ rows, lookup_reservations db phone = .ok rows →
      rows ≠ [] ∧ rows.Sorted rowDateTimeLe ∧
      rows.Perm (db.filter fun r =>
        r.phone_number == phone && r.status == ReservationStatus.scheduled) ∧
      ∀ r ∈ rows, r.phone_number = phone ∧ r.status = ReservationStatus.scheduled) := by
  have hperm := List.perm_insertionSort rowDateTimeLe (db.filter fun r =>
    r.phone_number == phone && r.status == ReservationStatus.scheduled)
  constructor
  · constructor
    · intro h r hr hp hs
      simp only [lookup_reservations] at h
      split at h
      · next hc =>
        have hnil : (db.filter fun r =>
            r.phone_number == phone && r.status == ReservationStatus.scheduled) = [] := by
          refine List.Perm.eq_nil ?_
          rw [List.isEmpty_iff] at hc
          exact hc ▸ hperm.symm
        have : r ∈ (db.filter fun r =>
            r.phone_number == phone && r.status == ReservationStatus.scheduled) := by
          simp [List.mem_filter, hr, hp, hs]
        rw [hnil] at this
        cases this
      · cases h
    · intro hall
      simp only [lookup_reservations]
      have hnil : (db.filter fun r =>
          r.phone_number == phone && r.status == ReservationStatus.scheduled) = [] := by
        rw [List.filter_eq_nil_iff]
        intro r hr
        simp only [Bool.and_eq_true, beq_iff_eq, not_and]
        exact fun hp => hall r hr hp
      rw [hnil]
      rfl
  · intro rows hok
    simp only [lookup_reservations] at hok
    split at hok
    · cases hok
    · next hc =>
      have hrows : rows = (db.filter fun r =>
          r.phone_number == phone &&
            r.status == ReservationStatus.scheduled).insertionSort rowDateTimeLe :=
        (Except.ok.inj hok).symm
      subst hrows
      refine ⟨fun hnil => hc (by rw [hnil]; rfl), List.sorted_insertionSort _ _, hperm,
        fun r hr => ?_⟩
      have : r ∈ (db.filter fun r =>
          r.phone_number == phone && r.status == ReservationStatus.scheduled) :=
        hperm.mem_iff.mp hr
      have := List.mem_filter.mp this
      simpa using this.2

theorem filter_map_id_pred (db : List Row) (i : String) (f : Row → Row)
    (hf : ∀ r, (f r).reservation_id = r.reservation_id) :
    (db.map f).filter (fun r => r.reservation_id == i) =
      (db.filter fun r => r.reservation_id == i).map f := by
  induction db with
  | nil => rfl
  | cons a l ih =>
    by_cases h : a.reservation_id = i <;>
      simp [List.filter_cons, hf, h, ih]

theorem filter_id_singleton (db : List Row) (i : String) (r0 : Row)
    (hnd : idsNodup db) (h0 : r0 ∈ db) (hid : r0.reservation_id = i) :
    db.filter (fun r => r.reservation_id == i) = [r0] := by
  induction db with
  | nil => cases h0
  | cons a l ih =>
    have hnd' := (List.nodup_cons.mp hnd)
    rcases List.mem_cons.mp h0 with h | h
    · subst h
      have hl : l.filter (fun r => r.reservation_id == i) = [] := by
        rw [List.filter_eq_nil_iff]
        intro r hr he
        apply hnd'.1
        have hmem : r.reservation_id ∈ l.map (fun r => r.reservation_id) :=
          List.mem_map_of_mem (fun r => r.reservation_id) hr
        rw [beq_iff_eq.mp he] at hmem
        show r0.reservation_id ∈ l.map (fun r => r.reservation_id)
        rw [hid]
        exact hmem
      simp [List.filter_cons, hid, hl]
    · have ha : ¬ a.reservation_id = i := by
        intro he
        apply hnd'.1
        have hmem : r0.reservation_id ∈ l.map (fun r => r.reservation_id) :=
          List.mem_map_of_mem (fun r => r.reservation_id) h
        rw [hid] at hmem
        show a.reservation_id ∈ l.map (fun r => r.reservation_id)
        rw [he]
        exact hmem
      simp [List.filter_cons, ha, ih hnd'.2 h]

theorem modify_reservation_spec (db : List Row) (i : String) (u : ReservationUpdate)
    (r0 : Row) (hnd : idsNodup db) (h0 : r0 ∈ db) (hid : r0.reservation_id = i) :
    modify_reservation db i u =
      if check_availability_conflict db (u.stylist_name.getD r0.stylist_name)
          (u.reservation_date.getD r0.reservation_date)
          (u.reservation_time.getD r0.reservation_time) (some i) then
        (.error 409, db)
      else
        (.ok (applyUpdate u r0),
          db.map fun r => if r.reservation_id == i then applyUpdate u r else r) := by
  have hfil := filter_id_singleton db i r0 hnd h0 hid
  have hids : ∀ r : Row,
      ((if r.reservation_id == i then applyUpdate u r else r)).reservation_id =
        r.reservation_id := by
    intro r
    by_cases h : r.reservation_id = i <;> simp [applyUpdate, h]
  simp only [modify_reservation, hfil]
  by_cases hc : check_availability_conflict db (u.stylist_name.getD r0.stylist_name)
      (u.reservation_date.getD r0.reservation_date)
      (u.reservation_time.getD r0.reservation_time) (some i)
  · simp [hc]
  · have hinner : (db.map fun r =>
        if r.reservation_id == i then applyUpdate u r else r).filter
          (fun r => r.reservation_id == i) = [applyUpdate u r0] := by
      rw [filter_map_id_pred db i _ hids, hfil]
      simp [hid]
    rw [if_neg hc, if_neg hc, hinner]

theorem cancel_reservation_spec (db : List Row) (i : String) (r0 : Row)
    (h0 : r0 ∈ db) (hid : r0.reservation_id = i) :
    ∃ x : Row, x ∈ db ∧ x.reservation_id = i ∧
      cancel_reservation db i =
        (.ok { x with status := ReservationStatus.cancelled },
          db.map fun r =>
            if r.reservation_id == i then { r with status := ReservationStatus.cancelled }
            else r) := by
  have hfid : ∀ r : Row,
      ((if r.reservation_id == i then { r with status := ReservationStatus.cancelled }
        else r)).reservation_id = r.reservation_id := by
    intro r
    by_cases h : r.reservation_id = i <;> simp [h]
  have h2 := filter_map_id_pred db i
    (fun r => if r.reservation_id == i then { r with status := ReservationStatus.cancelled }
      else r) hfid
  cases hf : db.filter (fun r => r.reservation_id == i) with
  | nil =>
    have hr0f : r0 ∈ db.filter (fun r => r.reservation_id == i) :=
      List.mem_filter.mpr ⟨h0, by simpa using hid⟩
    rw [hf] at hr0f
    cases hr0f
  | cons x xs =>
    have hxf : x ∈ db.filter (fun r => r.reservation_id == i) := by rw [hf]; simp
    have hx : x.reservation_id = i := by simpa using (List.mem_filter.mp hxf).2
    refine ⟨x, (List.mem_filter.mp hxf).1, hx, ?_⟩
    rw [hf] at h2
    simp only [cancel_reservation, hf, h2, List.map_cons]
    rw [if_pos (beq_iff_eq.mpr hx)]

/-- C10: cancel asks only that the identifier exist — the row's status is
arbitrary, so cancelling an already-cancelled reservation also succeeds,
returning a row whose status is `cancelled`; cancelling twice leaves the
same store as cancelling once; and no field other than `status` changes. -/
theorem C10_cancel_requires_only_existence (db : List Row) (i : String) (r0 : Row)
    (h0 : r0 ∈ db) (hid : r0.reservation_id = i) :
    (∃ r', cancel_reservation db i =
        (.ok r', db.map fun r =>
          if r.reservation_id == i then { r with status := ReservationStatus.cancelled }
          else r) ∧
      r'.status = ReservationStatus.cancelled) ∧
    (cancel_reservation (cancel_reservation db i).2 i).2 = (cancel_reservation db i).2 ∧
    (cancel_reservation db i).2.map Row.nonStatusFields = db.map Row.nonStatusFields := by
  obtain ⟨x, hxdb, hx, hcancel⟩ := cancel_reservation_spec db i r0 h0 hid
  refine ⟨⟨{ x with status := ReservationStatus.cancelled }, hcancel, rfl⟩, ?_, ?_⟩
  · have hmem2 : ({ x with status := ReservationStatus.cancelled } : Row) ∈
        db.map fun r =>
          if r.reservation_id == i then { r with status := ReservationStatus.cancelled }
          else r :=
      List.mem_map.mpr ⟨x, hxdb, by rw [if_pos (beq_iff_eq.mpr hx)]⟩
    obtain ⟨x2, _, _, hcancel2⟩ := cancel_reservation_spec
      (db.map fun r =>
        if r.reservation_id == i then { r with status := ReservationStatus.cancelled }
        else r) i { x with status := ReservationStatus.cancelled } hmem2 hx
    rw [hcancel]
    dsimp only
    rw [hcancel2]
    dsimp only
    rw [List.map_map]
    apply List.map_congr_left
    intro r _
    by_cases h : r.reservation_id = i <;> simp [Function.comp, h]
  · rw [hcancel]
    dsimp only
    rw [List.map_map]
    apply List.map_congr_left
    intro r _
    by_cases h : r.reservation_id = i <;> simp [Function.comp, h, Row.nonStatusFields]

/-- C10 witness: cancelling an already-cancelled reservation changes no
field but `status`. -/
theorem C10_cancel_requires_only_existence_witness :
    (cancel_reservation [rowACancelled] "a").2.map Row.nonStatusFields =
      [rowACancelled].map Row.nonStatusFields :=
  (C10_cancel_requires_only_existence [rowACancelled] "a" rowACancelled
    (by simp) rfl).2.2

/-- C8: modify never changes `customer_name` (no update field projects into
the update set), every omitted field keeps its stored value, and a field
explicitly set — the empty string included — is stored as given. -/
theorem C8_modify_frame (db : List Row) (i : String) (u : ReservationUpdate) (r0 : Row)
    (hnd : idsNodup db) (h0 : r0 ∈ db) (hid : r0.reservation_id = i) :
    (modify_reservation db i u).2.map (fun r => r.customer_name) =
      db.map (fun r => r.customer_name) ∧
    (∀ r', (modify_reservation db i u).1 = .ok r' →
      r' = applyUpdate u r0 ∧
      r'.customer_name = r0.customer_name ∧
      r'.phone_number = r0.phone_number ∧
      r'.status = r0.status ∧
      (u.reservation_date = none → r'.reservation_date = r0.reservation_date) ∧
      (u.reservation_time = none → r'.reservation_time = r0.reservation_time) ∧
      (u.stylist_name = none → r'.stylist_name = r0.stylist_name) ∧
      (u.service_menu = none → r'.service_menu = r0.service_menu) ∧
      (u.duration_minutes = none → r'.duration_minutes = r0.duration_minutes) ∧
      (u.notes = none → r'.notes = r0.notes) ∧
      (∀ v, u.stylist_name = some v → r'.stylist_name = v) ∧
      (∀ v, u.service_menu = some v → r'.service_menu = v) ∧
      (∀ v, u.notes = some v → r'.notes = some v)) := by
  have hspec := modify_reservation_spec db i u r0 hnd h0 hid
  by_cases hc : check_availability_conflict db (u.stylist_name.getD r0.stylist_name)
      (u.reservation_date.getD r0.reservation_date)
      (u.reservation_time.getD r0.reservation_time) (some i)
  · rw [hspec, if_pos hc]
    dsimp only
    exact ⟨rfl, fun r' h => nomatch h⟩
  · rw [hspec, if_neg hc]
    dsimp only
    constructor
    · rw [List.map_map]
      apply List.map_congr_left
      intro r _
      by_cases h : r.reservation_id = i <;> simp [Function.comp, applyUpdate, h]
    · intro r' h
      have hr : r' = applyUpdate u r0 := (Except.ok.inj h).symm
      subst hr
      refine ⟨rfl, rfl, rfl, rfl,
        fun h => by simp [applyUpdate, h],
        fun h => by simp [applyUpdate, h],
        fun h => by simp [applyUpdate, h],
        fun h => by simp [applyUpdate, h],
        fun h => by simp [applyUpdate, h],
        fun h => by simp [applyUpdate, h],
        fun v hv => by simp [applyUpdate, hv],
        fun v hv => by simp [applyUpdate, hv],
        fun v hv => by simp [applyUpdate, hv]⟩

/-- C8 witness: an all-omitted update leaves every customer name in the
store unchanged. -/
theorem C8_modify_frame_witness :
    (modify_reservation [rowA] "a" emptyUpdate).2.map (fun r => r.customer_name) =
      [rowA].map (fun r => r.customer_name) :=
  (C8_modify_frame [rowA] "a" emptyUpdate rowA (by simp [idsNodup]) (by simp) rfl).1

/-- C6 counterexample: the store holds reservation "a" (cancelled) and
reservation "b" (scheduled) at the same slot — a state the API itself can
reach by create, cancel, re-create.  Modifying "a" with an all-omitted
update resolves to its own (stylist, date, time), yet the conflict check
finds "b" and the modify is rejected with 409. -/
theorem C6_counterexample :
    modify_reservation [rowACancelled, rowB] "a" emptyUpdate =
      (.error 409, [rowACancelled, rowB]) := by
  decide

/-- C6 (amended): for every existing reservation whose status is
`scheduled`, in a store with pairwise-distinct ids satisfying the
at-most-one-scheduled-per-slot invariant, a modify whose resulting
(stylist, date, time) equals the reservation's own current slot never
reports a conflict and succeeds, because the conflict check excludes the
reservation's own identifier. -/
theorem C6_modify_self_no_conflict (db : List Row) (i : String) (u : ReservationUpdate)
    (r0 : Row) (hnd : idsNodup db) (hinv : Inv db) (h0 : r0 ∈ db)
    (hid : r0.reservation_id = i) (hsch : r0.status = ReservationStatus.scheduled)
    (hs : u.stylist_name.getD r0.stylist_name = r0.stylist_name)
    (hd : u.reservation_date.getD r0.reservation_date = r0.reservation_date)
    (ht : u.reservation_time.getD r0.reservation_time = r0.reservation_time) :
    modify_reservation db i u =
      (.ok (applyUpdate u r0),
        db.map fun r => if r.reservation_id == i then applyUpdate u r else r) := by
  have hspec := modify_reservation_spec db i u r0 hnd h0 hid
  rw [hs, hd, ht] at hspec
  have hcf : check_availability_conflict db r0.stylist_name r0.reservation_date
      r0.reservation_time (some i) = false := by
    cases hb : check_availability_conflict db r0.stylist_name r0.reservation_date
        r0.reservation_time (some i) with
    | false => rfl
    | true =>
      exfalso
      obtain ⟨r', hr'db, hs', hd', ht', hst', hne⟩ :=
        (conflict_iff db r0.stylist_name r0.reservation_date r0.reservation_time
          (some i)).mp hb
      have hner0 : r' ≠ r0 := fun he => (hne i rfl) (he ▸ hid)
      have hmem1 : r' ∈ db.filter
          (matchesSlot r0.stylist_name r0.reservation_date r0.reservation_time) :=
        List.mem_filter.mpr ⟨hr'db, by simp [matchesSlot, hs', hd', ht', hst']⟩
      have hmem0 : r0 ∈ db.filter
          (matchesSlot r0.stylist_name r0.reservation_date r0.reservation_time) :=
        List.mem_filter.mpr ⟨h0, by simp [matchesSlot, hsch]⟩
      have hlen := hinv r0.stylist_name r0.reservation_date r0.reservation_time
      unfold schedCount at hlen
      cases hfl : db.filter
          (matchesSlot r0.stylist_name r0.reservation_date r0.reservation_time) with
      | nil =>
        rw [hfl] at hmem0
        cases hmem0
      | cons y ys =>
        cases ys with
        | nil =>
          rw [hfl] at hmem0 hmem1
          have h01 : r0 = y := by simpa using hmem0
          have h11 : r' = y := by simpa using hmem1
          exact hner0 (h11.trans h01.symm)
        | cons z zs =>
          rw [hfl] at hlen
          simp at hlen
  rw [hspec, if_neg (by simp [hcf])]

/-- C6 witness: re-saving a scheduled reservation at its own slot with an
all-omitted update succeeds. -/
theorem C6_modify_self_no_conflict_witness :
    modify_reservation [rowA] "a" emptyUpdate =
      (.ok (applyUpdate emptyUpdate rowA),
        [rowA].map fun r => if r.reservation_id == "a" then applyUpdate emptyUpdate r
          else r) :=
  C6_modify_self_no_conflict [rowA] "a" emptyUpdate rowA (by simp [idsNodup])
    (fun s d t => le_trans (List.length_filter_le _ _) (by simp)) (by simp)
    rfl rfl rfl rfl rfl

/-- C5: creating at a free (stylist, date, time) succeeds and appends the
row; a second create with the identical triple while the first is
`scheduled` is rejected with 409 and leaves the store unchanged; after
cancelling the first reservation the identical create succeeds again. -/
theorem C5_create_conflict_cancel_create (db : List Row) (req : ReservationCreate)
    (id1 ts1 id2 ts2 : String)
    (hfree : check_availability_conflict db req.stylist_name req.reservation_date
      req.reservation_time none = false) :
    create_reservation db id1 ts1 req =
      (.ok (reservation_data id1 ts1 req), db ++ [reservation_data id1 ts1 req]) ∧
    create_reservation (db ++ [reservation_data id1 ts1 req]) id2 ts2 req =
      (.error 409, db ++ [reservation_data id1 ts1 req]) ∧
    ∃ rc db2, cancel_reservation (db ++ [reservation_data id1 ts1 req]) id1 =
        (.ok rc, db2) ∧
      check_availability_conflict db2 req.stylist_name req.reservation_date
        req.reservation_time none = false ∧
      create_reservation db2 id2 ts2 req =
        (.ok (reservation_data id2 ts2 req), db2 ++ [reservation_data id2 ts2 req]) := by
  have hbusy : check_availability_conflict (db ++ [reservation_data id1 ts1 req])
      req.stylist_name req.reservation_date req.reservation_time none = true := by
    refine (conflict_iff _ _ _ _ none).mpr
      ⟨reservation_data id1 ts1 req, ?_, rfl, rfl, rfl, rfl, fun e he => nomatch he⟩
    simp
  have hrow1mem : reservation_data id1 ts1 req ∈ db ++ [reservation_data id1 ts1 req] := by
    simp
  obtain ⟨x, hxdb, hx, hcancel⟩ := cancel_reservation_spec
    (db ++ [reservation_data id1 ts1 req]) id1 (reservation_data id1 ts1 req)
    hrow1mem rfl
  have hfree2 : check_availability_conflict
      ((db ++ [reservation_data id1 ts1 req]).map fun r =>
        if r.reservation_id == id1 then { r with status := ReservationStatus.cancelled }
        else r)
      req.stylist_name req.reservation_date req.reservation_time none = false := by
    cases hb : check_availability_conflict
        ((db ++ [reservation_data id1 ts1 req]).map fun r =>
          if r.reservation_id == id1 then { r with status := ReservationStatus.cancelled }
          else r)
        req.stylist_name req.reservation_date req.reservation_time none with
    | false => rfl
    | true =>
      exfalso
      obtain ⟨r', hr', hs', hd', ht', hst', _⟩ := (conflict_iff _ _ _ _ none).mp hb
      obtain ⟨r, hrdb1, hfr⟩ := List.mem_map.mp hr'
      by_cases hri : r.reservation_id = id1
      · rw [if_pos (beq_iff_eq.mpr hri)] at hfr
        rw [← hfr] at hst'
        cases hst'
      · rw [if_neg (by simp [hri])] at hfr
        subst hfr
        rcases List.mem_append.mp hrdb1 with hrdb | hrrow
        · have : check_availability_conflict db req.stylist_name req.reservation_date
              req.reservation_time none = true :=
            (conflict_iff _ _ _ _ none).mpr
              ⟨r, hrdb, hs', hd', ht', hst', fun e he => nomatch he⟩
          rw [hfree] at this
          cases this
        · have hr1 : r = reservation_data id1 ts1 req := by simpa using hrrow
          exact hri (by rw [hr1]; rfl)
  refine ⟨by simp [create_reservation, hfree], by simp [create_reservation, hbusy],
    { x with status := ReservationStatus.cancelled }, _, hcancel, hfree2, ?_⟩
  simp only [create_reservation]
  rw [hfree2]
  simp

/-- C5 witness: the create, reject, cancel, re-create story on the empty
store for a concrete request. -/
theorem C5_create_conflict_cancel_create_witness :
    create_reservation [] "a" "t1" reqA =
      (.ok (reservation_data "a" "t1" reqA), [] ++ [reservation_data "a" "t1" reqA]) :=
  (C5_create_conflict_cancel_create [] reqA "a" "t1" "b" "t2" (by decide)).1

theorem check_availability_eq (db : List Row) (stylist d : String) :
    check_availability db stylist d =
      (((db.filter fun r => r.stylist_name == stylist && r.reservation_date == d &&
          r.status == ReservationStatus.scheduled).map
            fun r => r.reservation_time).insertionSort Time.le,
        (get_all_hours_in_day.filter fun t =>
          !(((db.filter fun r => r.stylist_name == stylist && r.reservation_date == d &&
            r.status == ReservationStatus.scheduled).map
              fun r => r.reservation_time).contains t)).insertionSort Time.le) := rfl

theorem booked_count (db : List Row) (stylist d : String) (t : Time) :
    ((db.filter fun r => r.stylist_name == stylist && r.reservation_date == d &&
        r.status == ReservationStatus.scheduled).map
          fun r => r.reservation_time).count t = schedCount db stylist d t := by
  induction db with
  | nil => rfl
  | cons a l ih =>
    by_cases hs : a.stylist_name = stylist <;>
      by_cases hd2 : a.reservation_date = d <;>
        by_cases hst : a.status = ReservationStatus.scheduled <;>
          by_cases htt : a.reservation_time = t <;>
            simp [schedCount, matchesSlot, List.filter_cons, List.count_cons,
              hs, hd2, hst, htt, ih]

/-- C3 counterexample: with two `scheduled` reservations at the same slot
(distinct ids — a store state the advisory, non-atomic pre-check cannot
rule out), the `booked` list of `check_availability` holds the start time
twice: it is not a list of distinct times. -/
theorem C3_counterexample :
    ¬ ((check_availability [rowA, rowB] "Kim" "2025-06-01").1).Nodup := by
  decide

/-- C3 (amended): the universe is exactly the 8 hourly slots 09:00:00
through 16:00:00, independent of every reservation's duration; `booked` is
the sorted start-times of `scheduled` reservations for the stylist and
date with multiplicity (duplicates remain when the store holds several
scheduled reservations at one slot, and the list is duplicate-free
whenever the store satisfies the one-scheduled-per-slot invariant);
`available` is the sorted, duplicate-free set-difference of the universe
minus the booked times, so the two lists are disjoint and each is in
ascending order. -/
theorem C3_available_slots_amended :
    get_all_hours_in_day =
      [⟨9, 0, 0⟩, ⟨10, 0, 0⟩, ⟨11, 0, 0⟩, ⟨12, 0, 0⟩, ⟨13, 0, 0⟩, ⟨14, 0, 0⟩,
        ⟨15, 0, 0⟩, ⟨16, 0, 0⟩] ∧
    ∀ (db : List Row) (stylist d : String),
      (check_availability db stylist d).1.Sorted Time.le ∧
      (check_availability db stylist d).2.Sorted Time.le ∧
      (check_availability db stylist d).2.Nodup ∧
      (∀ t, t ∈ (check_availability db stylist d).2 ↔
        t ∈ get_all_hours_in_day ∧ t ∉ (check_availability db stylist d).1) ∧
      (∀ t ∈ (check_availability db stylist d).1,
        t ∉ (check_availability db stylist d).2) ∧
      (∀ t, (check_availability db stylist d).1.count t = schedCount db stylist d t) ∧
      (∀ f : Row → Int,
        check_availability (db.map fun r => { r with duration_minutes := f r }) stylist d =
          check_availability db stylist d) ∧
      (Inv db → (check_availability db stylist d).1.Nodup) := by
  refine ⟨by decide, ?_⟩
  intro db stylist d
  rw [check_availability_eq]
  dsimp only
  have hbperm := List.perm_insertionSort Time.le
    ((db.filter fun r => r.stylist_name == stylist && r.reservation_date == d &&
      r.status == ReservationStatus.scheduled).map fun r => r.reservation_time)
  have haperm := List.perm_insertionSort Time.le
    (get_all_hours_in_day.filter fun t =>
      !(((db.filter fun r => r.stylist_name == stylist && r.reservation_date == d &&
        r.status == ReservationStatus.scheduled).map
          fun r => r.reservation_time).contains t))
  refine ⟨List.sorted_insertionSort _ _, List.sorted_insertionSort _ _, ?_, ?_, ?_, ?_,
    ?_, ?_⟩
  · exact haperm.nodup_iff.mpr (List.Nodup.filter _ (by decide))
  · intro t
    rw [haperm.mem_iff, List.mem_filter, hbperm.mem_iff]
    simp
  · intro t ht hav
    rw [haperm.mem_iff, List.mem_filter] at hav
    rw [hbperm.mem_iff] at ht
    have h2 := hav.2
    rw [Bool.not_eq_true'] at h2
    exact absurd ht (by simpa using h2)
  · intro t
    rw [hbperm.count_eq]
    exact booked_count db stylist d t
  · intro f
    rw [check_availability_eq]
    have hfil : ((db.map fun r => { r with duration_minutes := f r }).filter
        fun r => r.stylist_name == stylist && r.reservation_date == d &&
          r.status == ReservationStatus.scheduled) =
        (db.filter fun r => r.stylist_name == stylist && r.reservation_date == d &&
          r.status == ReservationStatus.scheduled).map
            fun r => { r with duration_minutes := f r } := by
      rw [List.filter_map]
      congr 1
    have hb : ((db.map fun r => { r with duration_minutes := f r }).filter
        fun r => r.stylist_name == stylist && r.reservation_date == d &&
          r.status == ReservationStatus.scheduled).map (fun r => r.reservation_time) =
        (db.filter fun r => r.stylist_name == stylist && r.reservation_date == d &&
          r.status == ReservationStatus.scheduled).map fun r => r.reservation_time := by
      rw [hfil, List.map_map]
      exact List.map_congr_left fun a _ => rfl
    rw [hb]
  · intro hinv
    rw [List.nodup_iff_count_le_one]
    intro t
    rw [hbperm.count_eq, booked_count db stylist d t]
    exact hinv stylist d t

theorem conflict_none_eq (db : List Row) (s d : String) (t : Time) :
    check_availability_conflict db s d t none = decide (0 < schedCount db s d t) := rfl

theorem conflict_some_eq (db : List Row) (s d : String) (t : Time) (e : String) :
    check_availability_conflict db s d t (some e) =
      decide (0 < ((db.filter (matchesSlot s d t)).filter
        fun r => r.reservation_id != e).length) := rfl

theorem schedCount_append (a b : List Row) (s d : String) (t : Time) :
    schedCount (a ++ b) s d t = schedCount a s d t + schedCount b s d t := by
  unfold schedCount
  rw [List.filter_append, List.length_append]

theorem schedCount_cons (r : Row) (db : List Row) (s d : String) (t : Time) :
    schedCount (r :: db) s d t =
      (if matchesSlot s d t r then 1 else 0) + schedCount db s d t := by
  unfold schedCount
  rw [List.filter_cons]
  by_cases h : matchesSlot s d t r = true <;> simp [h]
  omega

theorem filter_length_mono (l : List Row) (p q : Row → Bool)
    (h : ∀ r ∈ l, p r = true → q r = true) :
    (l.filter p).length ≤ (l.filter q).length := by
  induction l with
  | nil => exact Nat.le_refl 0
  | cons a tl ih =>
    have ih' := ih fun r hr => h r (List.mem_cons_of_mem a hr)
    by_cases hp : p a = true <;> by_cases hq : q a = true <;>
      simp [List.filter_cons, hp, hq, Nat.succ_le_succ, ih']
    · exact absurd (h a (List.mem_cons_self a tl) hp) hq
    · exact Nat.le_succ_of_le ih'

theorem exists_split_of_id (db : List Row) (i : String) (r0 : Row)
    (hnd : idsNodup db) (h0 : r0 ∈ db) (hid : r0.reservation_id = i) :
    ∃ l1 l2, db = l1 ++ r0 :: l2 ∧ (∀ r ∈ l1, r.reservation_id ≠ i) ∧
      ∀ r ∈ l2, r.reservation_id ≠ i := by
  obtain ⟨l1, l2, rfl⟩ := List.append_of_mem h0
  unfold idsNodup at hnd
  rw [List.map_append, List.map_cons, List.nodup_append] at hnd
  obtain ⟨_, hnd2, hdisj⟩ := hnd
  refine ⟨l1, l2, rfl, ?_, ?_⟩
  · intro r hr he
    exact hdisj (List.mem_map_of_mem _ hr)
      (by rw [he, ← hid]; exact List.mem_cons_self _ _)
  · intro r hr he
    exact (List.nodup_cons.mp hnd2).1
      (by rw [hid, ← he]; exact List.mem_map_of_mem _ hr)

theorem map_id_of_eq (l : List Row) (f : Row → Row) (h : ∀ r ∈ l, f r = r) :
    l.map f = l := by
  induction l with
  | nil => rfl
  | cons a tl ih =>
    rw [List.map_cons, h a (List.mem_cons_self a tl),
      ih fun r hr => h r (List.mem_cons_of_mem a hr)]

/-- C1: under sequential execution every exposed write preserves the
invariant of at most one `scheduled` reservation per (stylist, date, time)
slot: create inserts only after the conflict pre-check reports the slot
free, modify writes only after the same check excluding the reservation
being modified (given the store's pairwise-distinct ids), and cancel only
turns statuses into `cancelled`. -/
theorem C1_operations_preserve_invariant (db : List Row) (hinv : Inv db) :
    (∀ (newId ts : String) (req : ReservationCreate),
      Inv (create_reservation db newId ts req).2) ∧
    (∀ (i : String) (u : ReservationUpdate), idsNodup db →
      Inv (modify_reservation db i u).2) ∧
    (∀ i : String, Inv (cancel_reservation db i).2) := by
  refine ⟨?_, ?_, ?_⟩
  · intro newId ts req
    cases hc : check_availability_conflict db req.stylist_name req.reservation_date
        req.reservation_time none with
    | true =>
      simp only [create_reservation, hc, if_true]
      exact hinv
    | false =>
      simp only [create_reservation, hc, Bool.false_eq_true, if_false]
      intro s d t
      rw [schedCount_append]
      have h5 : schedCount [reservation_data newId ts req] s d t ≤ 1 :=
        le_trans (List.length_filter_le _ _) (by simp)
      by_cases hm : matchesSlot s d t (reservation_data newId ts req) = true
      · obtain ⟨h1', h2', h3'⟩ :
            req.stylist_name = s ∧ req.reservation_date = d ∧ req.reservation_time = t := by
          have h4 := hm
          simp [matchesSlot, reservation_data] at h4
          exact ⟨h4.1.1, h4.1.2, h4.2⟩
        subst h1'
        subst h2'
        subst h3'
        have heq := conflict_none_eq db req.stylist_name req.reservation_date
          req.reservation_time
        rw [hc] at heq
        have h0 := of_decide_eq_false heq.symm
        omega
      · have hz0 : schedCount [reservation_data newId ts req] s d t = 0 := by
          unfold schedCount
          rw [List.length_eq_zero, List.filter_eq_nil_iff]
          intro r hr
          rw [List.mem_singleton] at hr
          subst hr
          exact fun hmm => hm hmm
        have := hinv s d t
        omega
  · intro i u hnd
    cases hf : db.filter (fun r => r.reservation_id == i) with
    | nil =>
      simp only [modify_reservation, hf]
      exact hinv
    | cons r0 rest =>
      have hr0f : r0 ∈ db.filter (fun r => r.reservation_id == i) := by rw [hf]; simp
      have hr0 : r0 ∈ db := (List.mem_filter.mp hr0f).1
      have hr0id : r0.reservation_id = i := by simpa using (List.mem_filter.mp hr0f).2
      have hspec := modify_reservation_spec db i u r0 hnd hr0 hr0id
      by_cases hc : check_availability_conflict db (u.stylist_name.getD r0.stylist_name)
          (u.reservation_date.getD r0.reservation_date)
          (u.reservation_time.getD r0.reservation_time) (some i) = true
      · rw [hspec, if_pos hc]
        exact hinv
      · rw [hspec, if_neg hc]
        dsimp only
        have hcf : check_availability_conflict db (u.stylist_name.getD r0.stylist_name)
            (u.reservation_date.getD r0.reservation_date)
            (u.reservation_time.getD r0.reservation_time) (some i) = false := by
          revert hc
          cases check_availability_conflict db (u.stylist_name.getD r0.stylist_name)
            (u.reservation_date.getD r0.reservation_date)
            (u.reservation_time.getD r0.reservation_time) (some i) <;> simp
        have hno : ∀ r ∈ db,
            matchesSlot (u.stylist_name.getD r0.stylist_name)
              (u.reservation_date.getD r0.reservation_date)
              (u.reservation_time.getD r0.reservation_time) r = true →
              r.reservation_id = i := by
          intro r hr hm
          by_contra hne
          have hmem : r ∈ (db.filter (matchesSlot (u.stylist_name.getD r0.stylist_name)
              (u.reservation_date.getD r0.reservation_date)
              (u.reservation_time.getD r0.reservation_time))).filter
                fun r => r.reservation_id != i :=
            List.mem_filter.mpr ⟨List.mem_filter.mpr ⟨hr, hm⟩, by simpa using hne⟩
          have hpos := List.length_pos_iff_exists_mem.mpr ⟨r, hmem⟩
          have heq2 := conflict_some_eq db (u.stylist_name.getD r0.stylist_name)
            (u.reservation_date.getD r0.reservation_date)
            (u.reservation_time.getD r0.reservation_time) i
          rw [hcf] at heq2
          exact of_decide_eq_false heq2.symm hpos
        obtain ⟨l1, l2, hdb, hl1, hl2⟩ := exists_split_of_id db i r0 hnd hr0 hr0id
        subst hdb
        intro s d t
        rw [List.map_append, List.map_cons]
        have hml1 : l1.map (fun r => if r.reservation_id == i then applyUpdate u r else r)
            = l1 :=
          map_id_of_eq l1 _ fun r hr => if_neg (by simp [hl1 r hr])
        have hml2 : l2.map (fun r => if r.reservation_id == i then applyUpdate u r else r)
            = l2 :=
          map_id_of_eq l2 _ fun r hr => if_neg (by simp [hl2 r hr])
        rw [hml1, hml2, if_pos (by simpa using hr0id)]
        rw [schedCount_append, schedCount_cons]
        have horig := hinv s d t
        rw [schedCount_append, schedCount_cons] at horig
        by_cases hm : matchesSlot s d t (applyUpdate u r0) = true
        · obtain ⟨hs', hd', ht'⟩ :
              u.stylist_name.getD r0.stylist_name = s ∧
                u.reservation_date.getD r0.reservation_date = d ∧
                u.reservation_time.getD r0.reservation_time = t := by
            have h4 := hm
            simp [matchesSlot, applyUpdate] at h4
            exact ⟨h4.1.1.1, h4.1.1.2, h4.1.2⟩
          subst hs'
          subst hd'
          subst ht'
          have hz1 : schedCount l1 (u.stylist_name.getD r0.stylist_name)
              (u.reservation_date.getD r0.reservation_date)
              (u.reservation_time.getD r0.reservation_time) = 0 := by
            unfold schedCount
            rw [List.length_eq_zero, List.filter_eq_nil_iff]
            intro r hr hmr
            exact hl1 r hr (hno r (by simp [hr]) hmr)
          have hz2 : schedCount l2 (u.stylist_name.getD r0.stylist_name)
              (u.reservation_date.getD r0.reservation_date)
              (u.reservation_time.getD r0.reservation_time) = 0 := by
            unfold schedCount
            rw [List.length_eq_zero, List.filter_eq_nil_iff]
            intro r hr hmr
            exact hl2 r hr (hno r (by simp [hr]) hmr)
          rw [if_pos hm, hz1, hz2]
        · rw [if_neg hm]
          by_cases hm0 : matchesSlot s d t r0 = true
          · rw [if_pos hm0] at horig
            omega
          · rw [if_neg hm0] at horig
            omega
  · intro i
    cases hf : db.filter (fun r => r.reservation_id == i) with
    | nil =>
      simp only [cancel_reservation, hf]
      exact hinv
    | cons x xs =>
      have hxf : x ∈ db.filter (fun r => r.reservation_id == i) := by rw [hf]; simp
      obtain ⟨y, hydb, hy, hcancel⟩ := cancel_reservation_spec db i x
        (List.mem_filter.mp hxf).1 (by simpa using (List.mem_filter.mp hxf).2)
      rw [hcancel]
      dsimp only
      intro s d t
      refine le_trans ?_ (hinv s d t)
      unfold schedCount
      rw [List.filter_map, List.length_map]
      apply filter_length_mono
      intro r _ hp
      rw [Function.comp_apply] at hp
      by_cases hri : r.reservation_id = i
      · rw [if_pos (by simpa using hri)] at hp
        simp [matchesSlot] at hp
      · rw [if_neg (by simpa using hri)] at hp
        exact hp

/-- C1 witness: cancelling in a one-row store keeps the invariant. -/
theorem C1_operations_preserve_invariant_witness :
    Inv (cancel_reservation [rowA] "a").2 :=
  (C1_operations_preserve_invariant [rowA]
    (fun s d t => le_trans (List.length_filter_le _ _) (by simp))).2.2 "a"

end Salon
